import Mathlib

/-!
Verification development for the model-audit-cli repository.

Shallow embedding of the fetching / metric-evaluation pipeline:
  * `metrics_engine.py` (clamping, per-metric error isolation, run_metrics),
  * `metrics/ramp_up_time.py` (the registered ramp_up_time metric),
  * `metrics/net_score.py` (weight table and NetScore.evaluate),
  * `adapters/client.py` and `adapters/hf_client.py` (`_get_json` retry loop),
  * `adapters/code_fetchers.py` (URL parsing, ref extraction, tarball URLs,
    `_extract_tarball` error mapping),
  * `adapters/hf_fetchers.py` / `adapters/github_fetcher.py` (`__exit__` cleanup).

Numbers are modelled over ℚ (exact arithmetic for the documented score
algebra); wall-clock durations are supplied by an oracle parameter, since
real time is outside the embedding.  Python exceptions are values of `PyExc`;
fallible code returns `Except` or a result type with explicit error shapes.
-/

/-- Python exception value: the class name (`type(e).__name__`) and message. -/
structure PyExc where
  kind : String
  msg : String
deriving DecidableEq

/-- Error codes of `model_audit_cli.errors`.  Modelled from the spec:
`errors.py` itself is not in the source tree (only its importers are); §7 of
the spec gives the taxonomy `UnsupportedLocation / NotFound / HttpError /
NetworkError / SchemaError` as distinct kinds.  The names follow the
constants imported from `model_audit_cli.errors` across the repository. -/
inductive ErrorCode where
  | NOT_FOUND
  | HTTP_ERROR
  | NETWORK_ERROR
  | SCHEMA_ERROR
  | UNSUPPORTED_URL
deriving DecidableEq

/-- Typed application error (`model_audit_cli.errors.AppError`): a code, a
message and free-form context pairs (e.g. the offending URL).  The `cause`
argument of the Python class is not modelled. -/
structure AppError where
  code : ErrorCode
  message : String
  context : List (String × String) := []
deriving DecidableEq

/-! ## Evaluation engine: `src/model_audit_cli/metrics_engine.py` -/

/-- Value slot of a metric result as seen by the engine: a Python number
(`int`/`float`, both clamped via `float(value)`), a `dict` of numeric
sub-scores, or any other shape (recorded with its Python type name). -/
inductive EngineVal where
  | num (q : ℚ)
  | dict (entries : List (String × ℚ))
  | invalid (typeName : String)
deriving DecidableEq

/-- Model dictionary passed to `run_metrics` (`model: dict`), with the keys
the registered `ramp_up_time` metric reads via `model.get`. -/
structure ModelDict where
  readme_text : String
  example_files : List String
  likes : Int

/-- Object returned by a metric function: either a `MetricResult`-like object
carrying `.value` and `.details` attributes, or a plain Python `dict`
(which has no `.value` attribute, so the engine's attribute access raises
`AttributeError`). -/
inductive MetricRet where
  | result (value : EngineVal) (details : List (String × String))
  | pyDict (entries : List (String × ℚ))

/-- A registered metric function: `MetricFunction = Callable[[Mapping], MetricResult]`;
raising is modelled by returning `.error`. -/
def MetricFn : Type := ModelDict → Except PyExc MetricRet

/-- Normalized metric result produced by the engine
(`metrics/types.py: MetricResult`). -/
structure MetricResult where
  name : String
  value : EngineVal
  latency_ms : ℚ
  details : List (String × String)
deriving DecidableEq

/-- Source `metrics_engine._clamp` (lines 16-22): clamp numbers to [0, 1]. -/
def _clamp (x : ℚ) : ℚ :=
  if x < 0.0 then 0.0
  else if x > 1.0 then 1.0
  else x

/-- Python message of the `AttributeError` raised by `r.value` when the
metric returned a plain dict. -/
def attrErrorExc : PyExc :=
  ⟨"AttributeError", "\x27dict\x27 object has no attribute \x27value\x27"⟩

/-- Source `metrics_engine._safe_run` (lines 25-64): run one metric with
timing, clamping and error capture.  `dt` is the oracle for the measured
wall-clock latency of this invocation (`time.perf_counter()` differences are
outside the embedding).  The `try` body evaluates `fn(model)`, reads
`r.value` (an `AttributeError` when `r` is a plain dict), normalizes the
value, and preserves `r.details`; the `except` branch returns value `0.0`
and `details = {"error": f"{type(e).__name__}: {e}"}` (braces elided). -/
def _safe_run (name : String) (fn : MetricFn) (model : ModelDict) (dt : ℚ) :
    MetricResult :=
  match fn model with
  | .error e =>
      ⟨name, .num 0.0, dt, [("error", e.kind ++ ": " ++ e.msg)]⟩
  | .ok (.pyDict _) =>
      ⟨name, .num 0.0, dt,
        [("error", attrErrorExc.kind ++ ": " ++ attrErrorExc.msg)]⟩
  | .ok (.result v details) =>
      match v with
      | .num q => ⟨name, .num (_clamp q), dt, details⟩
      | .dict es => ⟨name, .dict (es.map (fun kv => (kv.1, _clamp kv.2))), dt, details⟩
      | .invalid _ => ⟨name, .num 0.0, dt, details⟩

/-- Source `metrics_engine.run_metrics` (lines 67-82): run all registered
metrics sequentially and key the results by metric name.  `METRICS` is a
Python dict, so its item list has pairwise-distinct names; `lat` is the
latency oracle giving each metric invocation its measured duration. -/
def run_metrics (metrics : List (String × MetricFn)) (lat : String → ℚ)
    (model : ModelDict) : List (String × MetricResult) :=
  metrics.map (fun p => (p.1, _safe_run p.1 p.2 model (lat p.1)))

/-! ## Registered metric: `src/model_audit_cli/metrics/ramp_up_time.py` -/

/-- Python `str.endswith`. -/
def endswith (s suf : String) : Bool :=
  suf.data.isSuffixOf s.data

/-- Python `str.lower`. -/
def lowerStr (s : String) : String :=
  ⟨s.data.map Char.toLower⟩

/-- Contiguous-sublist test on char lists (structural, kernel-reducible). -/
def listInfix (needle : List Char) : List Char → Bool
  | [] => needle.isEmpty
  | c :: t => needle.isPrefixOf (c :: t) || listInfix needle t

/-- Python `needle in haystack` on strings (substring test). -/
def strContains (haystack needle : String) : Bool :=
  listInfix needle.data haystack.data

/-- Source `metrics/ramp_up_time.py: ramp_up_time` (lines 7-55), as invoked
by the engine with the single argument `model` (so `readme_file is None` and
no file I/O happens).  It computes the readme / examples / likes sub-scores
and returns a plain Python dict — not a `MetricResult` — matching the source
`return` statement.  The `ramp_up_time_latency` entry is `int(latency_ms)`
from a `perf_counter` difference, which the embedding fixes at 0. -/
def ramp_up_time (model : ModelDict) : Except PyExc MetricRet :=
  let readme_text := model.readme_text
  let readme_score := min ((readme_text.length : ℚ) / 5000.0) 1.0
  let examples_score : ℚ :=
    if model.example_files.any
        (fun f => endswith f ".ipynb" || strContains (lowerStr f) "example")
    then 1.0 else 0.0
  let likes_score := min ((model.likes : ℚ) / 1000.0) 1.0
  let score := 0.4 * readme_score + 0.35 * examples_score + 0.25 * likes_score
  .ok (.pyDict [("ramp_up_time", score), ("ramp_up_time_latency", 0)])

/-- Source `metrics_engine.py` lines 11-13 with `metrics/types.py`: the
`METRICS` registry after the registration import of the `ramp_up_time`
module (its `@register("ramp_up_time")` decorator). -/
def METRICS : List (String × MetricFn) := [("ramp_up_time", ramp_up_time)]

/-- Predicate: an engine output value is a scalar in [0,1] or a mapping all
of whose entries are in [0,1]. -/
def valueIn01 : EngineVal → Prop
  | .num q => 0 ≤ q ∧ q ≤ 1
  | .dict es => ∀ kv ∈ es, 0 ≤ kv.2 ∧ kv.2 ≤ 1
  | .invalid _ => False

/-! ## Aggregator: `src/model_audit_cli/metrics/net_score.py` -/

/-- Value slot of a `base_metric.Metric` object as inspected by
`NetScore.evaluate`: `isinstance(value, float)` (Python `float` only — an
`int` does not pass), `isinstance(value, dict)`, or any other shape. -/
inductive NSValue where
  | float (q : ℚ)
  | dict (entries : List (String × ℚ))
  | other
deriving DecidableEq

/-- Metric object handed to `NetScore.evaluate`: the fields it reads are
`metric.name` and `metric.value`. -/
structure NSMetric where
  name : String
  value : NSValue
deriving DecidableEq

/-- Exceptions `NetScore.evaluate` can raise: `KeyError` from
`METRIC_WEIGHTS[metric.name]` and `StatisticsError` from
`statistics.mean([])`. -/
inductive NSError where
  | keyError (key : String)
  | statisticsError
deriving DecidableEq

/-- Source `metrics/net_score.py: METRIC_WEIGHTS` (lines 10-19). -/
def METRIC_WEIGHTS : List (String × ℚ) :=
  [("license", 0.20),
   ("ramp_up_time", 0.15),
   ("bus_factor", 0.15),
   ("dataset_and_code_score", 0.10),
   ("dataset_quality", 0.10),
   ("code_quality", 0.10),
   ("performance_claims", 0.10),
   ("size", 0.10)]

/-- Python `statistics.mean` of the values of a dict (exact ℚ mean; the
caller guards against the empty case, where `mean` raises). -/
def mean (es : List (String × ℚ)) : ℚ :=
  (es.map (fun kv => kv.2)).sum / (es.length : ℚ)

/-- Loop body of `NetScore.evaluate` (lines 42-49), threading the running
`self.value` accumulator.  First branch: `metric.name == "size" and
isinstance(metric.value, dict)` adds `METRIC_WEIGHTS[name] * mean(values)`
(a `KeyError` if the name were absent, a `StatisticsError` on an empty
dict).  Second branch: `isinstance(metric.value, float)` adds
`METRIC_WEIGHTS[name] * value` (`KeyError` when the name is absent).
Any other metric is skipped. -/
def netScoreGo (acc : ℚ) : List NSMetric → Except NSError ℚ
  | [] => .ok acc
  | m :: rest =>
      match m.value with
      | .dict es =>
          if m.name = "size" then
            match METRIC_WEIGHTS.lookup m.name with
            | none => .error (.keyError m.name)
            | some w =>
                if es.isEmpty then .error .statisticsError
                else netScoreGo (acc + w * mean es) rest
          else netScoreGo acc rest
      | .float q =>
          match METRIC_WEIGHTS.lookup m.name with
          | none => .error (.keyError m.name)
          | some w => netScoreGo (acc + w * q) rest
      | .other => netScoreGo acc rest

/-- Source `metrics/net_score.py: NetScore.evaluate` (lines 30-50): starts
from `self.value = 0` and folds the loop body over the metric list; the
final accumulator is the net score (`self.latency_ms` is a wall-clock
measurement outside the embedding). -/
def netScoreEvaluate (metrics : List NSMetric) : Except NSError ℚ :=
  netScoreGo 0 metrics

/-- Contribution of one metric to the weighted sum, as the spec describes
it: weight times the scalar value, or weight times the mean of the mapping
values for the size metric; metrics hitting neither branch contribute 0. -/
def contrib (m : NSMetric) : ℚ :=
  match m.value with
  | .float q => ((METRIC_WEIGHTS.lookup m.name).getD 0) * q
  | .dict es => if m.name = "size" then ((METRIC_WEIGHTS.lookup m.name).getD 0) * mean es else 0
  | .other => 0

/-- Well-formedness of a metric record for the weighted-sum law: its name is
in the weight table, and its value is either a scalar float or (for the size
metric) a non-empty mapping. -/
def WFMetric (m : NSMetric) : Bool :=
  (METRIC_WEIGHTS.lookup m.name).isSome &&
    (match m.value with
     | .float _ => true
     | .dict es => m.name == "size" && !es.isEmpty
     | .other => false)

/-! ## Retrying HTTP client: `adapters/client.py` / `adapters/hf_client.py` -/

/-- Outcome of one `requests.get` call: an HTTP response (status and body;
`response.json()` is modelled as returning the body) or a transport-level
`requests.exceptions.RequestException` (connection refused, timeout, ...)
raised before any response exists. -/
inductive Attempt where
  | response (status : Nat) (body : String)
  | transportError (msg : String)
deriving DecidableEq

/-- Result of `_get_json`, also counting the `requests.get` calls made:
the parsed body, a raised `AppError`, or the `UnboundLocalError` hit when
the final `raise http_error_from_hf_response(url=url, status=response...)`
reads the local `response` although no attempt ever bound it. -/
inductive GetResult where
  | ok (json : String) (requestsMade : Nat)
  | appError (e : AppError) (requestsMade : Nat)
  | unboundLocalError (requestsMade : Nat)
deriving DecidableEq

/-- Modelled from the spec: `errors.http_error_from_hf_response` is not in
the source tree.  Per §7, a 404 maps to the distinguished `NotFound` kind
("remote ref/file absent") and any other non-2xx terminal status to
`HttpError`, carrying the offending URL, status code and body snippet. -/
def http_error_from_hf_response (url : String) (status : Nat) (body : String) :
    AppError :=
  if status = 404 then
    ⟨.NOT_FOUND, "Resource not found.",
      [("url", url), ("status", toString status), ("body", body)]⟩
  else
    ⟨.HTTP_ERROR, "HTTP error.",
      [("url", url), ("status", toString status), ("body", body)]⟩

/-- Final `raise http_error_from_hf_response(url=url, status=response.status_code,
body=response.text)` after the loop: `response` is whatever the latest
`requests.get` bound — if no attempt ever received a response, the name is
unbound and the statement itself raises `UnboundLocalError`. -/
def raiseFromResponse (url : String) (lastResp : Option (Nat × String))
    (made : Nat) : GetResult :=
  match lastResp with
  | none => .unboundLocalError made
  | some (status, body) => .appError (http_error_from_hf_response url status body) made

/-- Loop of `_Client._get_json` / `HFClient._get_json` (lines 42-68 of
`client.py`, identical in `hf_client.py`): `for attempt in range(retries + 1)`.
Each iteration calls `requests.get` (outcome `att attempt`);
`raise_for_status` raises `HTTPError` exactly for statuses in [400, 600).
On `HTTPError`: retry (`continue`) when `status >= 500 and attempt < retries`,
or when `status == 429 and attempt < retries`; otherwise `break`.  On a
transport `RequestException`: retry when `attempt < retries`, else `break`.
Backoff sleeps are timing only and are not modelled.  `fuel` is the number
of loop iterations left (`retries + 1 - attempt`); exhausted fuel or a break
falls through to the final raise. -/
def getJsonLoop (url : String) (att : Nat → Attempt) (retries : Nat) :
    Nat → Nat → Option (Nat × String) → GetResult
  | 0, attempt, lastResp => raiseFromResponse url lastResp attempt
  | fuel + 1, attempt, lastResp =>
      match att attempt with
      | .response status body =>
          if 400 ≤ status ∧ status < 600 then
            if 500 ≤ status ∧ attempt < retries then
              getJsonLoop url att retries fuel (attempt + 1) (some (status, body))
            else if status = 429 ∧ attempt < retries then
              getJsonLoop url att retries fuel (attempt + 1) (some (status, body))
            else raiseFromResponse url (some (status, body)) (attempt + 1)
          else .ok body (attempt + 1)
      | .transportError _ =>
          if attempt < retries then
            getJsonLoop url att retries fuel (attempt + 1) lastResp
          else raiseFromResponse url lastResp (attempt + 1)

/-- Source `_Client._get_json` / `HFClient._get_json` (lines 24-72): run the
retry loop from attempt 0 with no response bound yet. -/
def _get_json (url : String) (att : Nat → Attempt) (retries : Nat) : GetResult :=
  getJsonLoop url att retries (retries + 1) 0 none

/-! ## Code fetchers: `src/model_audit_cli/adapters/code_fetchers.py` -/

/-- Python `a or b` for an optional string against a string default:
`None` and `""` are falsy. -/
def pyOr (a : Option String) (d : String) : String :=
  match a with
  | some s => if s = "" then d else s
  | none => d

/-- Python `a or b` for two optional strings (`None` and `""` are falsy). -/
def pyOrOpt (a b : Option String) : Option String :=
  match a with
  | some s => if s = "" then b else some s
  | none => b

/-- Characters after the first `://` marker, if any. -/
def dropScheme : List Char → Option (List Char)
  | ':' :: '/' :: '/' :: rest => some rest
  | _ :: rest => dropScheme rest
  | [] => none

/-- Source `code_fetchers._parse` (lines 64-66): `urlparse(url)` then
`(p.netloc.lower(), [x for x in p.path.strip("/").split("/") if x])`.
The embedding reads the netloc as everything between `://` and the next
slash (a schemeless URL is all path, as with `urlparse`), cuts the path at
a query or fragment marker, and filters empty path segments — dropping
empties subsumes `strip("/")` before the split. -/
def _parse (url : String) : String × List String :=
  let rest := (dropScheme url.data).getD url.data
  let netloc := if (dropScheme url.data).isSome then rest.takeWhile (fun c => c != '/') else []
  let pathChars := (rest.drop netloc.length).takeWhile (fun c => c != '?' && c != '#')
  let host := String.mk (netloc.map Char.toLower)
  let parts := ((pathChars.splitOn '/').map String.mk).filter (fun s => s != "")
  (host, parts)

/-- Source `code_fetchers._is_hf_space` (lines 69-70). -/
def _is_hf_space (host : String) (parts : List String) : Bool :=
  host == "huggingface.co" && decide (3 ≤ parts.length) && parts.getD 0 "" == "spaces"

/-- Source `code_fetchers._extract_rev` (lines 73-77): the first path
segment following a `tree`, `blob` or `resolve` segment (the last segment
never matches, since `range(len(parts) - 1)` stops before it). -/
def _extract_rev : List String → Option String
  | x :: y :: rest =>
      if x = "tree" ∨ x = "blob" ∨ x = "resolve" then some y
      else _extract_rev (y :: rest)
  | _ => none

/-- State of a `_GitHubCodeFetcher` after `__init__` (lines 106-130):
`self.ref = ref or "main"`. -/
structure GitHubFetcherState where
  owner : String
  repo : String
  ref : String
  need_history : Bool
  token : Option String
deriving DecidableEq

/-- Source `_GitHubCodeFetcher.__init__` (lines 106-130). -/
def _GitHubCodeFetcher_init (owner repo : String) (ref : Option String)
    (need_history : Bool) (token : Option String) : GitHubFetcherState :=
  ⟨owner, repo, pyOr ref "main", need_history, token⟩

/-- State of a `_GitLabCodeFetcher` after `__init__` (lines 181-202):
`self.ref = ref or "main"`. -/
structure GitLabFetcherState where
  ns_name : String
  ref : String
  need_history : Bool
  token : Option String
deriving DecidableEq

/-- Fetcher variant selected by `open_codebase`. -/
inductive CodebaseFetcher where
  | hfSpace (repo_id : String) (revision : Option String)
  | github (s : GitHubFetcherState)
  | gitlab (s : GitLabFetcherState)
deriving DecidableEq

/-- Source `code_fetchers.open_codebase` (lines 21-61): classify the URL by
host and build the matching fetcher; the revision is
`_extract_rev(parts) or ref`, and unsupported hosts raise
`AppError(UNSUPPORTED_URL, ...)` before any network call. -/
def open_codebase (url : String) (need_history : Bool)
    (ref token : Option String) : Except AppError CodebaseFetcher :=
  let hp := _parse url
  let host := hp.1
  let parts := hp.2
  if _is_hf_space host parts then
    .ok (.hfSpace (parts.getD 1 "" ++ "/" ++ parts.getD 2 "") (_extract_rev parts))
  else if endswith host "github.com" then
    .ok (.github (_GitHubCodeFetcher_init (parts.getD 0 "") (parts.getD 1 "")
      (pyOrOpt (_extract_rev parts) ref) need_history token))
  else if endswith host "gitlab.com" then
    .ok (.gitlab ⟨parts.getD 0 "", pyOr (pyOrOpt (_extract_rev parts) ref) "main",
      need_history, token⟩)
  else
    .error ⟨.UNSUPPORTED_URL, "Unsupported codebase url link", []⟩

/-- Archive-download URL requested by `_GitHubCodeFetcher.__enter__` in the
tarball mode (lines 147-150):
`https://api.github.com/repos/OWNER/REPO/tarball/REF`. -/
def githubTarballUrl (s : GitHubFetcherState) : String :=
  "https://api.github.com/repos/" ++ s.owner ++ "/" ++ s.repo ++ "/tarball/" ++ s.ref

/-- Source `code_fetchers._extract_tarball` (lines 244-263): download the
archive; `raise_for_status` failures (statuses in [400, 600), including
404) are re-raised as `AppError(HTTP_ERROR, ...)`, transport failures as
`AppError(NETWORK_ERROR, ...)`.  The tarball extraction itself is
filesystem work outside the embedding. -/
def _extract_tarball (url : String) (outcome : Attempt) : Except AppError Unit :=
  match outcome with
  | .response status _ =>
      if 400 ≤ status ∧ status < 600 then
        .error ⟨.HTTP_ERROR,
          "GitHub returned HTTP " ++ toString status ++ " for tarball.",
          [("url", url)]⟩
      else .ok ()
  | .transportError _ =>
      .error ⟨.NETWORK_ERROR, "Network error fetching GitHub tarball.",
        [("url", url)]⟩

/-! ## Fetcher scope exits -/

/-- Source `hf_fetchers._BaseSnapshotFetcher.__exit__` (lines 82-109):
`if exc_value: raise exc_value` runs BEFORE the cleanup block, so on an
exceptional exit the method re-raises immediately and
`self._tmp_dir.cleanup()` is never reached; only the non-exception path
removes the temporary directory.  The result is (does the temporary
directory still exist on disk, exception propagated out of the scope). -/
def _BaseSnapshotFetcher_exit (exc_value : Option PyExc) (tmpDirExists : Bool) :
    Bool × Option PyExc :=
  match exc_value with
  | some e => (tmpDirExists, some e)
  | none => (false, none)

/-- Source `github_fetcher.GitHubCodeFetcher.__exit__` (lines 81-108):
identical structure — `if exc_value: raise exc_value` precedes the cleanup,
which therefore only runs on the non-exception path. -/
def GitHubCodeFetcher_exit (exc_value : Option PyExc) (tmpDirExists : Bool) :
    Bool × Option PyExc :=
  match exc_value with
  | some e => (tmpDirExists, some e)
  | none => (false, none)

/-- Source `code_fetchers._GitHubCodeFetcher.__exit__` (lines 159-170) and
`_GitLabCodeFetcher.__exit__` (lines 230-241): cleanup runs in a
`try/finally` unconditionally, so the directory is removed on every exit
path and the body exception (if any) propagates normally. -/
def archiveFetcher_exit (exc_value : Option PyExc) (_tmpDirExists : Bool) :
    Bool × Option PyExc :=
  (false, exc_value)

/-! ## Helper lemmas -/

/-- Clamped values lie in [0, 1]. -/
lemma clamp_mem_Icc (x : ℚ) : 0 ≤ _clamp x ∧ _clamp x ≤ 1 := by
  unfold _clamp
  split_ifs with h1 h2
  · norm_num
  · norm_num
  · norm_num at h1 h2
    exact ⟨h1, h2⟩

/-- Appending around the literal `": "` never yields the empty string. -/
lemma append_colon_ne_empty (a b : String) : a ++ ": " ++ b ≠ "" := by
  intro h
  have hd := congrArg String.data h
  simp [String.data_append] at hd

/-- C2 counterexample: a metric returning a value of an unexpected shape
(with empty own details) is neutralized to 0.0, but the result's details
stay empty — no details note records the invalid shape (the source only
logs it), contradicting the claim that a details entry records it. -/
theorem c2_invalid_shape_counterexample :
    (_safe_run "license" (fun _ => .ok (.result (.invalid "NoneType") []))
        ⟨"", [], 0⟩ 0).details = []
    ∧ (_safe_run "license" (fun _ => .ok (.result (.invalid "NoneType") []))
        ⟨"", [], 0⟩ 0).value = .num 0.0 := by
  exact ⟨rfl, rfl⟩

/-- C2 (amended): every value the engine returns lies in [0,1] — scalars are
clamped, mapping entries are clamped independently, and any other shape is
replaced by 0.0 with the metric's own details passed through unchanged (the
invalid shape is only logged, not recorded in the result's details). -/
theorem c2_normalization (name : String) (fn : MetricFn) (model : ModelDict) (dt : ℚ) :
    valueIn01 (_safe_run name fn model dt).value
    ∧ (∀ q ds, fn model = .ok (.result (.num q) ds) →
        _safe_run name fn model dt = ⟨name, .num (_clamp q), dt, ds⟩)
    ∧ (∀ es ds, fn model = .ok (.result (.dict es) ds) →
        _safe_run name fn model dt
          = ⟨name, .dict (es.map (fun kv => (kv.1, _clamp kv.2))), dt, ds⟩)
    ∧ (∀ ty ds, fn model = .ok (.result (.invalid ty) ds) →
        _safe_run name fn model dt = ⟨name, .num 0.0, dt, ds⟩) := by
  refine ⟨?_, ?_, ?_, ?_⟩
  · rcases hfn : fn model with e | r
    · simp only [_safe_run, hfn, valueIn01]
      norm_num
    · rcases r with ⟨v, ds⟩ | es
      · rcases v with q | es | ty
        · simp only [_safe_run, hfn, valueIn01]
          exact clamp_mem_Icc q
        · simp only [_safe_run, hfn, valueIn01]
          intro kv hkv
          rcases List.mem_map.mp hkv with ⟨kv0, _, rfl⟩
          exact clamp_mem_Icc kv0.2
        · simp only [_safe_run, hfn, valueIn01]
          norm_num
      · simp only [_safe_run, hfn, valueIn01]
        norm_num
  · intro q ds h
    simp only [_safe_run, h]
  · intro es ds h
    simp only [_safe_run, h]
  · intro ty ds h
    simp only [_safe_run, h]

/-- C2 witness: the amended normalization law evaluated at concrete metric
outputs — a scalar 2 is clamped to 1 and stays in range. -/
theorem c2_normalization_witness :
    valueIn01 (_safe_run "license" (fun _ => .ok (.result (.num 2) []))
        ⟨"", [], 0⟩ 0).value
    ∧ _safe_run "license" (fun _ => .ok (.result (.num 2) [])) ⟨"", [], 0⟩ 0
        = ⟨"license", .num (_clamp 2), 0, []⟩ := by
  refine ⟨(c2_normalization "license" (fun _ => .ok (.result (.num 2) [])) ⟨"", [], 0⟩ 0).1,
    (c2_normalization "license" (fun _ => .ok (.result (.num 2) [])) ⟨"", [], 0⟩ 0).2.1 2 [] rfl⟩

/-- C4: the cited `__exit__` implementations re-raise the body's exception
before the cleanup block, so after an exceptional scope exit the temporary
directory still exists on disk (first two conjuncts), while the normal exit
does remove it (third); the `code_fetchers` archive exits remove it on both
paths (last two). -/
theorem c4_exit_skips_cleanup_on_exception :
    (_BaseSnapshotFetcher_exit (some ⟨"ValueError", "boom"⟩) true).1 = true
    ∧ (GitHubCodeFetcher_exit (some ⟨"ValueError", "boom"⟩) true).1 = true
    ∧ (_BaseSnapshotFetcher_exit none true).1 = false
    ∧ (archiveFetcher_exit (some ⟨"ValueError", "boom"⟩) true).1 = false
    ∧ (archiveFetcher_exit none true).1 = false := by
  exact ⟨rfl, rfl, rfl, rfl, rfl⟩

/-- C6 counterexample: a 404 on an archive download is reported with the
generic `HTTP_ERROR` code — not the distinguished `NOT_FOUND` kind — so the
claim that 404 maps to a NotFound-kind error fails on the code. -/
theorem c6_404_counterexample :
    _extract_tarball "https://api.github.com/repos/o/r/tarball/main"
        (.response 404 "Not Found")
      = .error ⟨.HTTP_ERROR, "GitHub returned HTTP " ++ toString 404 ++ " for tarball.",
          [("url", "https://api.github.com/repos/o/r/tarball/main")]⟩
    ∧ ErrorCode.HTTP_ERROR ≠ ErrorCode.NOT_FOUND := by
  exact ⟨rfl, by decide⟩

/-- C6 (amended): every non-2xx download response in [400, 600) — the 404
included — is reported as the generic `HTTP_ERROR` kind carrying the URL;
no distinct NotFound kind is produced by the archive fetchers. -/
theorem c6_archive_404_is_generic_http_error (url body : String) (status : Nat)
    (h4 : 400 ≤ status) (h6 : status < 600) :
    _extract_tarball url (.response status body)
      = .error ⟨.HTTP_ERROR, "GitHub returned HTTP " ++ toString status ++ " for tarball.",
          [("url", url)]⟩ := by
  simp only [_extract_tarball]
  rw [if_pos ⟨h4, h6⟩]

/-- C6 witness: the amended statement evaluated at a concrete 404. -/
theorem c6_archive_404_witness :
    _extract_tarball "https://gitlab.com/g/p/-/archive/main/p-main.tar.gz"
        (.response 404 "Not Found")
      = .error ⟨.HTTP_ERROR, "GitHub returned HTTP " ++ toString 404 ++ " for tarball.",
          [("url", "https://gitlab.com/g/p/-/archive/main/p-main.tar.gz")]⟩ :=
  c6_archive_404_is_generic_http_error _ "Not Found" 404 (by decide) (by decide)

/-- C8: when every attempt fails at the transport level (no HTTP response is
ever received), the post-loop `raise http_error_from_hf_response(url=url,
status=response.status_code, ...)` reads the never-assigned local
`response`, so `_get_json` with `retries=2` terminates with an untyped
`UnboundLocalError` after exactly 3 attempts — not with a typed
NetworkError-kind `AppError`. -/
theorem c8_transport_failure_unbound_local :
    _get_json "https://huggingface.co/api/models/m"
        (fun _ => .transportError "connection refused") 2
      = .unboundLocalError 3 := by
  rfl

/-- C10: on every input model and latency oracle, the engine's result map
binds `ramp_up_time` to value 0.0 with a non-empty error detail: the
registered function returns a plain dict, so the engine's `r.value` access
raises `AttributeError` on every invocation. -/
theorem c10_ramp_up_time_always_errors (model : ModelDict) (lat : String → ℚ) :
    (run_metrics METRICS lat model).lookup "ramp_up_time"
      = some ⟨"ramp_up_time", .num 0.0, lat "ramp_up_time",
          [("error", attrErrorExc.kind ++ ": " ++ attrErrorExc.msg)]⟩
    ∧ attrErrorExc.kind ++ ": " ++ attrErrorExc.msg ≠ "" := by
  constructor
  · rfl
  · exact append_colon_ne_empty _ _

/-! ## Claim C5: retry policy of `_get_json` -/

/-- Response sequence 503, 503, 200. -/
def attSeq_503_503_200 : Nat → Attempt := fun n =>
  if n = 0 ∨ n = 1 then .response 503 "Service Unavailable" else .response 200 "body"

/-- Response sequence 503, 503, 503. -/
def attSeq_503_503_503 : Nat → Attempt := fun _ =>
  .response 503 "Service Unavailable"

/-- C5: with `retries = 2`, the sequence [503, 503, 200] succeeds with the
parsed body after exactly 3 requests; [503, 503, 503] raises the typed
`HTTP_ERROR` application error after exactly 3 requests; and a first-attempt
2xx response is returned immediately after exactly 1 request. -/
theorem c5_retry_policy :
    _get_json "https://huggingface.co/api/models/m" attSeq_503_503_200 2
      = .ok "body" 3
    ∧ _get_json "https://huggingface.co/api/models/m" attSeq_503_503_503 2
      = .appError (http_error_from_hf_response "https://huggingface.co/api/models/m"
          503 "Service Unavailable") 3
    ∧ (http_error_from_hf_response "https://huggingface.co/api/models/m"
        503 "Service Unavailable").code = .HTTP_ERROR
    ∧ (∀ (url body : String) (att : Nat → Attempt) (status retries : Nat),
        200 ≤ status → status < 300 → att 0 = .response status body →
        _get_json url att retries = .ok body 1) := by
  refine ⟨rfl, rfl, rfl, ?_⟩
  intro url body att status retries h2 h3 h0
  have hcond : ¬(400 ≤ status ∧ status < 600) := by omega
  simp only [_get_json, getJsonLoop, h0]
  rw [if_neg hcond]

/-- C5 witness: the universally quantified 2xx clause of the retry-policy
theorem applied at a concrete always-200 response sequence. -/
theorem c5_retry_policy_witness :
    _get_json "https://huggingface.co/u" (fun _ => .response 200 "ok") 5 = .ok "ok" 1 :=
  c5_retry_policy.2.2.2 "https://huggingface.co/u" "ok" (fun _ => .response 200 "ok")
    200 5 (by decide) (by decide) rfl

/-! ## Claim C1: per-metric failure isolation in `run_metrics` -/

/-- Lookup in the engine's result map for an untouched name is unchanged
when the entries of another name are excluded from the registry. -/
lemma run_metrics_lookup_filter (ms : List (String × MetricFn)) (lat : String → ℚ)
    (model : ModelDict) (fname name : String) (hne : name ≠ fname) :
    (run_metrics ms lat model).lookup name
      = (run_metrics (ms.filter (fun p => p.1 != fname)) lat model).lookup name := by
  induction ms with
  | nil => rfl
  | cons p rest ih =>
      by_cases hp : p.1 = fname
      · have hskip : (name == p.1) = false := by
          rw [hp]
          exact beq_false_of_ne hne
        have hfilter : (p.1 != fname) = false := by
          rw [hp]
          simp
        simp only [run_metrics, List.map_cons, List.filter_cons, hfilter,
          Bool.false_eq_true, if_false, List.lookup, hskip] at *
        exact ih
      · have hfilter : (p.1 != fname) = true := by
          simpa using hp
        by_cases hn : name = p.1
        · simp only [run_metrics, List.map_cons, List.filter_cons, hfilter,
            if_true, List.lookup, hn, beq_self_eq_true]
        · have hskip : (name == p.1) = false := beq_false_of_ne hn
          simp only [run_metrics, List.map_cons, List.filter_cons, hfilter,
            if_true, List.lookup, hskip] at *
          exact ih

/-- C1: if a registered metric function raises, the engine still returns an
entry for it with value 0.0, the measured latency from the oracle, and a
non-empty details entry of the form "kind: message"; and every other name
looks up to exactly the result of a run with the failing metric excluded. -/
theorem c1_failure_isolation (ms : List (String × MetricFn)) (lat : String → ℚ)
    (model : ModelDict) (fname : String) (fn : MetricFn) (e : PyExc)
    (hnd : (ms.map Prod.fst).Nodup) (hmem : (fname, fn) ∈ ms)
    (herr : fn model = .error e) :
    (run_metrics ms lat model).lookup fname
      = some ⟨fname, .num 0.0, lat fname, [("error", e.kind ++ ": " ++ e.msg)]⟩
    ∧ e.kind ++ ": " ++ e.msg ≠ ""
    ∧ ∀ name, name ≠ fname →
        (run_metrics ms lat model).lookup name
          = (run_metrics (ms.filter (fun p => p.1 != fname)) lat model).lookup name := by
  refine ⟨?_, append_colon_ne_empty _ _,
    fun name hne => run_metrics_lookup_filter ms lat model fname name hne⟩
  induction ms with
  | nil => cases hmem
  | cons p rest ih =>
      rcases List.mem_cons.mp hmem with heq | htail
      · subst heq
        simp only [run_metrics, List.map_cons, List.lookup, beq_self_eq_true,
          _safe_run, herr]
      · have hp1 : p.1 ≠ fname := by
          intro hcontra
          have hmemName : fname ∈ rest.map Prod.fst :=
            List.mem_map.mpr ⟨(fname, fn), htail, rfl⟩
          rw [List.map_cons, hcontra] at hnd
          exact (List.nodup_cons.mp hnd).1 hmemName
        have hskip : (fname == p.1) = false := beq_false_of_ne fun h => hp1 h.symm
        simp only [run_metrics, List.map_cons, List.lookup, hskip]
        exact ih (List.nodup_cons.mp (by rwa [List.map_cons] at hnd)).2 htail

/-- Concrete metric registry for the C1 witness: one healthy metric and one
that raises `ValueError: boom`. -/
def c1ms : List (String × MetricFn) :=
  [("good_metric", fun _ => .ok (.result (.num 1) [])),
   ("bad_metric", fun _ => .error ⟨"ValueError", "boom"⟩)]

/-- C1 witness: the isolation theorem applied to the concrete two-metric
registry — the raising metric yields the zero-valued error entry, and the
healthy metric's lookup agrees with the run that excludes the failing one. -/
theorem c1_failure_isolation_witness :
    (run_metrics c1ms (fun _ => 1) ⟨"", [], 0⟩).lookup "bad_metric"
      = some ⟨"bad_metric", .num 0.0, 1, [("error", "ValueError" ++ ": " ++ "boom")]⟩
    ∧ (run_metrics c1ms (fun _ => 1) ⟨"", [], 0⟩).lookup "good_metric"
      = (run_metrics (c1ms.filter (fun p => p.1 != "bad_metric"))
          (fun _ => 1) ⟨"", [], 0⟩).lookup "good_metric" := by
  have h := c1_failure_isolation c1ms (fun _ => 1) ⟨"", [], 0⟩ "bad_metric"
    (fun _ => .error ⟨"ValueError", "boom"⟩) ⟨"ValueError", "boom"⟩
    (by decide) (by simp [c1ms]) rfl
  exact ⟨h.1, h.2.2 "good_metric" (by decide)⟩

/-! ## Claim C3: weighted net score -/

/-- Evaluating the aggregation loop over well-formed metrics accumulates
exactly the weighted contributions. -/
lemma netScoreGo_eq_sum (metrics : List NSMetric) :
    ∀ acc : ℚ, (∀ m ∈ metrics, WFMetric m = true) →
      netScoreGo acc metrics = .ok (acc + (metrics.map contrib).sum) := by
  induction metrics with
  | nil => intro acc _; simp [netScoreGo]
  | cons m rest ih =>
      intro acc h
      have hm := h m (List.mem_cons_self m rest)
      have hrest := fun x hx => h x (List.mem_cons_of_mem m hx)
      unfold WFMetric at hm
      rcases hv : m.value with q | es | _ <;> rw [hv] at hm
      · rcases Option.isSome_iff_exists.mp (Bool.and_elim_left hm) with ⟨w, hw⟩
        simp only [netScoreGo, hv, hw, List.map_cons, List.sum_cons, contrib,
          Option.getD_some, ih _ hrest]
        rw [Except.ok.injEq]
        ring
      · rcases Bool.and_elim_right hm with hsz
        have hsize : m.name = "size" := by
          have := Bool.and_elim_left hsz
          exact eq_of_beq this
        have hne : es.isEmpty = false := by
          have := Bool.and_elim_right hsz
          simpa using this
        rcases Option.isSome_iff_exists.mp (Bool.and_elim_left hm) with ⟨w, hw⟩
        rw [hsize] at hw
        simp only [netScoreGo, hv, hsize, if_true, hw, hne, Bool.false_eq_true,
          if_false, List.map_cons, List.sum_cons, contrib, Option.getD_some,
          ih _ hrest]
        rw [Except.ok.injEq]
        ring
      · simp at hm

/-- C3: over any metric list whose entries are well formed for the weight
table (scalar float values, or the non-empty size mapping), the net score is
exactly the weighted sum — weight times value for scalars, weight times the
mean of the mapping values for the size metric. -/
theorem c3_net_score_weighted_sum (metrics : List NSMetric)
    (h : ∀ m ∈ metrics, WFMetric m = true) :
    netScoreEvaluate metrics = .ok ((metrics.map contrib).sum) := by
  unfold netScoreEvaluate
  rw [netScoreGo_eq_sum metrics 0 h, zero_add]

/-- Metric values of the worked example in the spec: all scalars except the
size mapping with four deployment targets all at 1.0. -/
def c3Metrics : List NSMetric :=
  [⟨"license", .float 1.0⟩,
   ⟨"ramp_up_time", .float 0.5⟩,
   ⟨"bus_factor", .float 0.5⟩,
   ⟨"dataset_and_code_score", .float 0.5⟩,
   ⟨"dataset_quality", .float 0.5⟩,
   ⟨"code_quality", .float 0.5⟩,
   ⟨"performance_claims", .float 0.5⟩,
   ⟨"size", .dict [("raspberry_pi", 1.0), ("jetson_nano", 1.0),
                   ("desktop_pc", 1.0), ("aws_server", 1.0)]⟩]

/-- C3 counterexample: for the worked example input, the net score actually
computed by the weighted fold is 0.65, not the 0.85 asserted by the claim —
the claimed total `0.20*1.0 + 0.15*0.5*2 + 0.10*0.5*4 + 0.10*1.0` itself
equals 0.65. -/
theorem c3_example_counterexample :
    netScoreEvaluate c3Metrics = .ok (0.65 : ℚ) ∧ (0.65 : ℚ) ≠ (0.85 : ℚ) := by
  constructor
  · have l1 : List.lookup "license" METRIC_WEIGHTS = some 0.20 := rfl
    have l2 : List.lookup "ramp_up_time" METRIC_WEIGHTS = some 0.15 := rfl
    have l3 : List.lookup "bus_factor" METRIC_WEIGHTS = some 0.15 := rfl
    have l4 : List.lookup "dataset_and_code_score" METRIC_WEIGHTS = some 0.10 := rfl
    have l5 : List.lookup "dataset_quality" METRIC_WEIGHTS = some 0.10 := rfl
    have l6 : List.lookup "code_quality" METRIC_WEIGHTS = some 0.10 := rfl
    have l7 : List.lookup "performance_claims" METRIC_WEIGHTS = some 0.10 := rfl
    have l8 : List.lookup "size" METRIC_WEIGHTS = some 0.10 := rfl
    simp only [netScoreEvaluate, c3Metrics, netScoreGo, l1, l2, l3, l4, l5, l6,
      l7, l8, mean, List.map_cons, List.map_nil, List.sum_cons, List.sum_nil]
    norm_num [List.isEmpty, Except.ok.injEq]
  · norm_num

/-- C3 witness (amended claim): the weighted-sum law applied to the spec's
worked example gives net score 0.65. -/
theorem c3_net_score_witness :
    (∀ m ∈ c3Metrics, WFMetric m = true)
    ∧ netScoreEvaluate c3Metrics = .ok (0.65 : ℚ) := by
  have hwf : ∀ m ∈ c3Metrics, WFMetric m = true := by decide
  refine ⟨hwf, ?_⟩
  rw [c3_net_score_weighted_sum c3Metrics hwf]
  rw [Except.ok.injEq]
  have l1 : List.lookup "license" METRIC_WEIGHTS = some 0.20 := rfl
  have l2 : List.lookup "ramp_up_time" METRIC_WEIGHTS = some 0.15 := rfl
  have l3 : List.lookup "bus_factor" METRIC_WEIGHTS = some 0.15 := rfl
  have l4 : List.lookup "dataset_and_code_score" METRIC_WEIGHTS = some 0.10 := rfl
  have l5 : List.lookup "dataset_quality" METRIC_WEIGHTS = some 0.10 := rfl
  have l6 : List.lookup "code_quality" METRIC_WEIGHTS = some 0.10 := rfl
  have l7 : List.lookup "performance_claims" METRIC_WEIGHTS = some 0.10 := rfl
  have l8 : List.lookup "size" METRIC_WEIGHTS = some 0.10 := rfl
  simp only [c3Metrics, List.map_cons, List.map_nil, List.sum_cons, List.sum_nil,
    contrib, mean, l1, l2, l3, l4, l5, l6, l7, l8, Option.getD_some]
  norm_num

/-! ## Claim C7: unknown metric names in aggregation -/

/-- One aggregation step skips a metric whose name is not in the weight
table and whose value is not a scalar float. -/
lemma netScoreGo_skip (acc : ℚ) (m : NSMetric) (rest : List NSMetric)
    (h1 : METRIC_WEIGHTS.lookup m.name = none) (h2 : ∀ q, m.value ≠ .float q) :
    netScoreGo acc (m :: rest) = netScoreGo acc rest := by
  rcases hv : m.value with q | es | _
  · exact absurd hv (h2 q)
  · have hsz : m.name ≠ "size" := by
      intro hcontra
      rw [hcontra] at h1
      exact absurd h1 (by decide)
    simp [netScoreGo, hv, hsz]
  · simp [netScoreGo, hv]

/-- Removing an unknown, non-float-valued metric anywhere in the list leaves
the aggregation fold unchanged. -/
lemma netScoreGo_middle (ms1 : List NSMetric) (m : NSMetric) (ms2 : List NSMetric)
    (h1 : METRIC_WEIGHTS.lookup m.name = none) (h2 : ∀ q, m.value ≠ .float q) :
    ∀ acc : ℚ, netScoreGo acc (ms1 ++ m :: ms2) = netScoreGo acc (ms1 ++ ms2) := by
  induction ms1 with
  | nil => exact fun acc => netScoreGo_skip acc m ms2 h1 h2
  | cons p rest ih =>
      intro acc
      rcases hv : p.value with q | es | _
      · rcases hw : METRIC_WEIGHTS.lookup p.name with _ | w
        · simp [netScoreGo, hv, hw]
        · simp only [List.cons_append, netScoreGo, hv, hw]
          exact ih _
      · by_cases hsz : p.name = "size"
        · rcases hw : METRIC_WEIGHTS.lookup p.name with _ | w
          · simp [netScoreGo, hv, hsz, hsz ▸ hw]
          · rcases he : es.isEmpty with _ | _
            · simp only [List.cons_append, netScoreGo, hv, hsz, if_true,
                hsz ▸ hw, he, Bool.false_eq_true, if_false]
              exact ih _
            · simp [netScoreGo, hv, hsz, hsz ▸ hw, he]
        · simp only [List.cons_append, netScoreGo, hv, hsz, if_false]
          exact ih _
      · simp only [List.cons_append, netScoreGo, hv]
        exact ih _

/-- C7 counterexample: a well-formed result list containing one metric with
a scalar value and a name absent from the weight table makes
`NetScore.evaluate` raise `KeyError` — aggregation does fail, and the
unknown metric is not ignored. -/
theorem c7_unknown_scalar_counterexample :
    netScoreEvaluate [⟨"extra_metric", .float 0.5⟩]
      = .error (.keyError "extra_metric") := by
  rfl

/-- C7 (amended): a metric absent from the weight table is ignored only when
its value is not a scalar float (it then contributes nothing and causes no
error); an unknown metric carrying a scalar float value instead makes the
aggregation raise a `KeyError` for its name. -/
theorem c7_unknown_metric_handling :
    (∀ (ms1 ms2 : List NSMetric) (m : NSMetric),
        METRIC_WEIGHTS.lookup m.name = none → (∀ q, m.value ≠ .float q) →
        netScoreEvaluate (ms1 ++ m :: ms2) = netScoreEvaluate (ms1 ++ ms2))
    ∧ (∀ (name : String) (q : ℚ), METRIC_WEIGHTS.lookup name = none →
        netScoreEvaluate [⟨name, .float q⟩] = .error (.keyError name)) := by
  constructor
  · intro ms1 ms2 m h1 h2
    exact netScoreGo_middle ms1 m ms2 h1 h2 0
  · intro name q h
    simp [netScoreEvaluate, netScoreGo, h]

/-- C7 witness: the amended statement applied at concrete inputs — an
unknown mapping-valued metric is dropped without error, and an unknown
scalar-valued metric raises `KeyError`. -/
theorem c7_unknown_metric_witness :
    netScoreEvaluate [⟨"extra_metric", .dict [("x", 0.5)]⟩, ⟨"license", .float 1.0⟩]
      = netScoreEvaluate [⟨"license", .float 1.0⟩]
    ∧ netScoreEvaluate [⟨"another_extra", .float 0.75⟩]
      = .error (.keyError "another_extra") := by
  constructor
  · exact c7_unknown_metric_handling.1 [] [⟨"license", .float 1.0⟩]
      ⟨"extra_metric", .dict [("x", 0.5)]⟩ (by decide)
      (fun q h => by cases h)
  · exact c7_unknown_metric_handling.2 "another_extra" 0.75 (by decide)

/-! ## Claim C9: `/tree/<ref>` resolves to the archive-download ref -/

/-- A revision extracted by `_extract_rev` is one of the path segments. -/
lemma extract_rev_mem (parts : List String) :
    ∀ rev : String, _extract_rev parts = some rev → rev ∈ parts := by
  induction parts with
  | nil => intro rev h; exact absurd h (by simp [_extract_rev])
  | cons x rest ih =>
      intro rev h
      cases rest with
      | nil => exact absurd h (by simp [_extract_rev])
      | cons y rest2 =>
          simp only [_extract_rev] at h
          by_cases hx : x = "tree" ∨ x = "blob" ∨ x = "resolve"
          · rw [if_pos hx] at h
            injection h with h
            exact List.mem_cons_of_mem x (h ▸ List.mem_cons_self y rest2)
          · rw [if_neg hx] at h
            exact List.mem_cons_of_mem x (ih rev h)

/-- Path segments produced by `_parse` are never empty (the comprehension
filters falsy segments). -/
lemma parse_parts_ne_empty (url : String) : ∀ s ∈ (_parse url).2, s ≠ "" := by
  intro s hs
  have hmem : (s != "") = true := by
    simp only [_parse] at hs
    exact (List.mem_filter.mp hs).2
  simpa using hmem

/-- C9: for every codebase URL whose parsed path carries a `/tree/<ref>`
style revision (i.e. `_extract_rev` finds `rev`) on a github.com host,
`open_codebase` builds a GitHub archive fetcher whose `ref` field is exactly
`rev`, and the archive-download URL it requests embeds exactly that ref. -/
theorem c9_tree_ref_in_tarball_url (url : String) (ref token : Option String)
    (rev : String)
    (hgh : endswith (_parse url).1 "github.com" = true)
    (hrev : _extract_rev (_parse url).2 = some rev) :
    ∃ s : GitHubFetcherState,
      open_codebase url false ref token = .ok (.github s)
      ∧ s.ref = rev
      ∧ githubTarballUrl s
          = "https://api.github.com/repos/" ++ s.owner ++ "/" ++ s.repo
            ++ "/tarball/" ++ rev := by
  have hrevne : rev ≠ "" :=
    parse_parts_ne_empty url rev (extract_rev_mem (_parse url).2 rev hrev)
  have hnospace : _is_hf_space (_parse url).1 (_parse url).2 = false := by
    rcases h : _is_hf_space (_parse url).1 (_parse url).2 with _ | _
    · rfl
    · exfalso
      have hhost : (_parse url).1 = "huggingface.co" := by
        unfold _is_hf_space at h
        exact eq_of_beq (Bool.and_elim_left (Bool.and_elim_left h))
      rw [hhost] at hgh
      exact absurd hgh (by decide)
  have href : pyOr (pyOrOpt (_extract_rev (_parse url).2) ref) "main" = rev := by
    rw [hrev]
    simp [pyOrOpt, pyOr, hrevne]
  refine ⟨_GitHubCodeFetcher_init ((_parse url).2.getD 0 "") ((_parse url).2.getD 1 "")
    (pyOrOpt (_extract_rev (_parse url).2) ref) false token, ?_, ?_, ?_⟩
  · simp only [open_codebase, hnospace, Bool.false_eq_true, if_false, hgh, if_true]
  · simpa only [_GitHubCodeFetcher_init] using href
  · simp only [githubTarballUrl, _GitHubCodeFetcher_init, href]

/-- C9 witness: the `/tree/<ref>` law applied to a concrete GitHub URL. -/
theorem c9_tree_ref_witness :
    endswith (_parse "https://github.com/acme/repo/tree/CSP-3-Email-verification").1
        "github.com" = true
    ∧ ∃ s : GitHubFetcherState,
        open_codebase "https://github.com/acme/repo/tree/CSP-3-Email-verification"
            false none none = .ok (.github s)
        ∧ s.ref = "CSP-3-Email-verification"
        ∧ githubTarballUrl s
            = "https://api.github.com/repos/" ++ s.owner ++ "/" ++ s.repo
              ++ "/tarball/" ++ "CSP-3-Email-verification" :=
  ⟨by decide, c9_tree_ref_in_tarball_url _ none none _ (by decide) (by decide)⟩
